import Mathlib

/-!
Verification of the NFO stock breakout detector core (`src/main.py`).

The embedding models the breakout classifier `identify_breakout` and the
scan orchestrator `scan_for_breakouts`.  Prices and volumes are rationals
(the Python floats carry exact decimal inputs in every scenario considered
here); pandas `NaN` cells are modelled with `Option`.  A Python run that
raises an uncaught exception is modelled as `none`.
-/

attribute [local semireducible] Rat.add Rat.mul Rat.inv Rat.sub

namespace BreakoutDetector

/-- A timestamp cell: either the raw value as fetched (a string in Python)
or the `pd.to_datetime`-converted value.  Both wrap the represented instant
as a natural-number key, which is what sorting compares. -/
inductive TsVal where
  | raw (n : Nat)
  | dt (n : Nat)
deriving DecidableEq, Repr

/-- The instant represented by a timestamp cell. -/
def TsVal.key : TsVal → Nat
  | .raw n => n
  | .dt n => n

/-- `pd.to_datetime` on one cell: converts a raw cell, fixes a datetime cell. -/
def to_datetime : TsVal → TsVal
  | .raw n => .dt n
  | .dt n => .dt n

/-- One OHLCV bar, a row of the fetched DataFrame.  The Python `open` column
is named `openPrice` because `open` is a Lean keyword. -/
structure Candle where
  timestamp : TsVal
  openPrice : ℚ
  high : ℚ
  low : ℚ
  close : ℚ
  volume : ℚ
deriving DecidableEq, Repr

/-- Line 168: `df['timestamp'] = pd.to_datetime(df['timestamp'])`, effect on
one row. -/
def convertTs (c : Candle) : Candle :=
  { c with timestamp := to_datetime c.timestamp }

/-- The comparison `sort_values('timestamp')` uses on rows. -/
def tsLE (a b : Candle) : Prop :=
  a.timestamp.key ≤ b.timestamp.key

instance : DecidableRel tsLE := fun _ _ => Nat.decLe _ _

instance : IsTotal Candle tsLE := ⟨fun _ _ => Nat.le_total _ _⟩

instance : IsTrans Candle tsLE := ⟨fun _ _ _ h1 h2 => Nat.le_trans h1 h2⟩

/-- Strict timestamp order, used to reason about sort uniqueness when
timestamps are pairwise distinct. -/
def tsLT (a b : Candle) : Prop :=
  a.timestamp.key < b.timestamp.key

instance : IsAntisymm Candle tsLT :=
  ⟨fun _ _ h1 h2 => absurd h2 (Nat.lt_asymm h1)⟩

/-- Line 169: `df = df.sort_values('timestamp')`. -/
def sortByTs (l : List Candle) : List Candle :=
  l.insertionSort tsLE

/-- The trailing window `pandas.rolling(window := k)` inspects at position
`i`: the last `k` positions up to and including `i` (fewer near the start). -/
def window (k i : Nat) (xs : List ℚ) : List ℚ :=
  (xs.take (i + 1)).drop (i + 1 - k)

/-- `rolling(k, min_periods=1).max()` on a NaN-free column. -/
def rollingMax (k : Nat) (xs : List ℚ) : List ℚ :=
  (List.range xs.length).map fun i => ((window k i xs).max?).getD 0

/-- `rolling(k, min_periods=1).mean()` on a NaN-free column. -/
def rollingMean (k : Nat) (xs : List ℚ) : List ℚ :=
  (List.range xs.length).map fun i =>
    (window k i xs).sum / ((window k i xs).length : ℚ)

/-- The defined (non-NaN) entries of the trailing window of a column that
may contain NaN cells. -/
def windowO (k i : Nat) (xs : List (Option ℚ)) : List ℚ :=
  ((xs.take (i + 1)).drop (i + 1 - k)).filterMap id

/-- `rolling(k, min_periods=1).mean()` on a column with NaN cells: pandas
averages the defined entries of the window and yields NaN when none are
defined (`min_periods` counts non-NaN observations). -/
def rollingMeanO (k : Nat) (xs : List (Option ℚ)) : List (Option ℚ) :=
  (List.range xs.length).map fun i =>
    let w := windowO k i xs
    if w.isEmpty then none else some (w.sum / (w.length : ℚ))

/-- `.iloc[-1]`: the last entry; raises (here `none`) on an empty column. -/
def ilocLast {α : Type} (xs : List α) : Option α :=
  xs.getLast?

/-- `.iloc[-2]`: the second-to-last entry; raises (here `none`) when the
column has fewer than two entries. -/
def ilocPrev {α : Type} (xs : List α) : Option α :=
  if 2 ≤ xs.length then xs.get? (xs.length - 2) else none

/-- True ranges of the candles after the first, each one
`np.maximum(high - low, np.maximum(|high - prev_close|, |low - prev_close|))`
with `prev` the preceding candle. -/
def trAux (prev : Candle) : List Candle → List (Option ℚ)
  | [] => []
  | c :: rest =>
      some (max (c.high - c.low)
        (max |c.high - prev.close| |c.low - prev.close|)) :: trAux c rest

/-- The `tr` column (lines 180-182).  `df['close'].shift(1)` is NaN at the
first row and `np.maximum` propagates NaN, so the first entry is NaN. -/
def trList : List Candle → List (Option ℚ)
  | [] => []
  | c :: rest => none :: trAux c rest

/-- The `details` dict built in the breakout branch. -/
structure Metrics where
  current_close : ℚ
  previous_high : ℚ
  breakout_size : ℚ
  atr : ℚ
  current_volume : ℚ
  avg_volume : ℚ
deriving DecidableEq, Repr

/-- The classifier's return value `(bool, str, dict)`; `metrics = none`
models the empty dict `{}`. -/
structure Verdict where
  is_breakout : Bool
  category : String
  metrics : Option Metrics
deriving DecidableEq, Repr

/-- Lines 170-213 of `identify_breakout`, applied to the sorted frame.
`none` models an uncaught exception (`.iloc[-1]`/`.iloc[-2]` out of
bounds). -/
def classifySorted (dfs : List Candle) (lookback : Nat) : Option Verdict :=
  let hh := rollingMax lookback (dfs.map (·.high))
  match ilocLast dfs, ilocPrev hh with
  | some lastC, some previous_high =>
    let current_close := lastC.close
    if previous_high < current_close then
      let atrs := rollingMeanO 14 (trList dfs)
      -- the last `atr` cell is never NaN here: the frame has ≥ 2 rows, so
      -- the window at the last position contains the defined last `tr`
      let atr := ((ilocLast atrs).join).getD 0
      let breakout_size := current_close - previous_high
      let avg_volume :=
        (ilocLast (rollingMean lookback (dfs.map (·.volume)))).getD 0
      let current_volume := lastC.volume
      let details : Metrics :=
        ⟨current_close, previous_high, breakout_size, atr,
          current_volume, avg_volume⟩
      if atr < breakout_size then
        if (3 : ℚ) / 2 * avg_volume < current_volume then
          some ⟨true, "Full Breakout", some details⟩
        else
          some ⟨true, "Partial Breakout - Low Volume", some details⟩
      else
        some ⟨true, "Partial Breakout - Small Size", some details⟩
    else
      some ⟨false, "No Breakout", none⟩
  | _, _ => none

/-- The sorted, timestamp-converted frame the classifier works on
(lines 168-169). -/
def sortedOf (df : List Candle) : List Candle :=
  sortByTs (df.map convertTs)

/-- `identify_breakout` (lines 163-213).  The early length guard precedes
everything; `lookback = 0` then models the `ValueError` pandas raises at
`rolling(window=0, min_periods=1)` on line 170. -/
def identify_breakout (df : List Candle) (lookback : Nat) : Option Verdict :=
  if df.length < lookback then
    some ⟨false, "Insufficient Data", none⟩
  else if lookback = 0 then
    none
  else
    classifySorted (sortedOf df) lookback

/-- The caller's DataFrame after `identify_breakout` returns: the in-place
column write on line 168 runs exactly when the length guard passes, and
`sort_values` returns a copy, so only the timestamp conversion is visible
to the caller. -/
def identify_breakout_post (df : List Candle) (lookback : Nat) : List Candle :=
  if df.length < lookback then df else df.map convertTs

/-- The `previous_high` benchmark: rolling `lookback`-high at the
second-to-last position. -/
def prevHighOf (df : List Candle) (lookback : Nat) : Option ℚ :=
  ilocPrev (rollingMax lookback ((sortedOf df).map (·.high)))

/-- The close of the last candle after sorting. -/
def lastCloseOf (df : List Candle) : Option ℚ :=
  (ilocLast (sortedOf df)).map (·.close)

/-- The ATR value the classifier reads at the last position. -/
def atrOf (df : List Candle) : ℚ :=
  ((ilocLast (rollingMeanO 14 (trList (sortedOf df)))).join).getD 0

/-- The volume of the last candle after sorting. -/
def curVolOf (df : List Candle) : ℚ :=
  ((ilocLast (sortedOf df)).map (·.volume)).getD 0

/-- The trailing mean volume over `lookback` candles at the last position. -/
def avgVolOf (df : List Candle) (lookback : Nat) : ℚ :=
  (ilocLast (rollingMean lookback ((sortedOf df).map (·.volume)))).getD 0

/-- The category the spec's tie-break order prescribes in the breakout
branch: inclusive boundaries, small-size checked first. -/
def claimCategory (breakout_size atr current_volume avg_volume : ℚ) : String :=
  if breakout_size ≤ atr then "Partial Breakout - Small Size"
  else if current_volume ≤ (3 : ℚ) / 2 * avg_volume then
    "Partial Breakout - Low Volume"
  else "Full Breakout"

/-! ## Scan orchestrator (`scan_for_breakouts`, lines 215-258)

One fetch attempt either raises (`exn`), returns `None` (`ok none`), or
returns a DataFrame (`ok (some df)`, possibly empty).  The oracle is
indexed by the attempt number so retry scenarios can be expressed. -/

/-- Outcome of one call to `connector.get_historical_data`. -/
inductive FetchRes where
  | exn
  | ok (d : Option (List Candle))
deriving DecidableEq, Repr

/-- An observable orchestrator event: a fetch call (with its attempt
index), a backoff sleep inside the retry loop (line 250), or the
inter-symbol rate-limit sleep (line 256). -/
inductive Ev where
  | fetch (sym : String) (attempt : Nat)
  | backoff (d : Nat)
  | pause (d : Nat)
deriving DecidableEq, Repr

/-- A row appended to `breakout_stocks`:
`{"symbol": symbol, "breakout_type": breakout_type, **details}`. -/
structure Rec where
  symbol : String
  breakout_type : String
  details : Option Metrics
deriving DecidableEq, Repr

/-- Lines 238-243: append the verdict joined with the symbol name when
`is_breakout` is true, else append nothing. -/
def recsOf (sym : String) (v : Verdict) : List Rec :=
  if v.is_breakout then [⟨sym, v.category, v.metrics⟩] else []

/-- The retry loop `for _ in range(3)` (lines 226-252) for one symbol.
`a` is the current attempt index, `r` the attempts remaining, `delay` the
current backoff delay.  Returns the records appended, the delay after the
loop, and the observed events.  An exception doubles the delay and sleeps
the doubled value (lines 249-250); a `None`/empty response breaks out at
once; on a non-empty response the classifier runs inside the same `try`,
so a classifier exception (`none`) is also caught and retried. -/
def attemptLoop (f : Nat → FetchRes) (sym : String) :
    Nat → Nat → Nat → List Rec × Nat × List Ev
  | _, 0, delay => ([], delay, [])
  | a, r + 1, delay =>
    match f a with
    | .exn =>
        let d := delay * 2
        let rest := attemptLoop f sym (a + 1) r d
        (rest.1, rest.2.1, Ev.fetch sym a :: Ev.backoff d :: rest.2.2)
    | .ok none => ([], delay, [Ev.fetch sym a])
    | .ok (some df) =>
        if df.isEmpty then ([], delay, [Ev.fetch sym a])
        else
          match identify_breakout df 20 with
          | some v => (recsOf sym v, delay, [Ev.fetch sym a])
          | none =>
              let d := delay * 2
              let rest := attemptLoop f sym (a + 1) r d
              (rest.1, rest.2.1, Ev.fetch sym a :: Ev.backoff d :: rest.2.2)

/-- The per-symbol step: token lookup, then the retry loop if a token was
found (lines 221-254). -/
def symbolStep (lookup : String → Bool) (F : String → Nat → FetchRes)
    (s : String) (delay : Nat) : List Rec × Nat × List Ev :=
  if lookup s then attemptLoop (F s) s 0 3 delay else ([], delay, [])

/-- The scan loop over the symbol list, threading the delay; after each
symbol the orchestrator sleeps the current delay (line 256). -/
def scanList (lookup : String → Bool) (F : String → Nat → FetchRes) :
    List String → Nat → List Rec × Nat × List Ev
  | [], delay => ([], delay, [])
  | s :: rest, delay =>
    let p := symbolStep lookup F s delay
    let q := scanList lookup F rest p.2.1
    (p.1 ++ q.1, q.2.1, p.2.2 ++ [Ev.pause p.2.1] ++ q.2.2)

/-- `scan_for_breakouts`: the delay starts at 1 (line 217). -/
def scan_for_breakouts (lookup : String → Bool)
    (F : String → Nat → FetchRes) (syms : List String) :
    List Rec × Nat × List Ev :=
  scanList lookup F syms 1

/-- The backoff sleeps observed in an event trace, in order. -/
def backoffs (evs : List Ev) : List Nat :=
  evs.filterMap fun e => match e with | .backoff d => some d | _ => none

/-- How many fetch calls a trace records for one symbol. -/
def fetchCount (sym : String) (evs : List Ev) : Nat :=
  (evs.filter fun e =>
    match e with | .fetch s _ => s == sym | _ => false).length

/-- The true ranges of consecutive candle pairs:
`max(high - low, |high - prev_close|, |low - prev_close|)` for every
candle that has a predecessor, in order. -/
def specTRs (l : List Candle) : List ℚ :=
  List.zipWith
    (fun prev c => max (c.high - c.low)
      (max |c.high - prev.close| |c.low - prev.close|)) l l.tail

/-- The true-range column as the spec's words describe it: the first
candle's true range is `high - low`, the rest follow the pair formula. -/
def claimTRs (l : List Candle) : List ℚ :=
  match l with
  | [] => []
  | c :: _ => (c.high - c.low) :: specTRs l

/-- The ATR the claim prescribes: the trailing 14-window mean over
`claimTRs` (every candle contributing a defined value) at the last
position. -/
def claimAtr (df : List Candle) : ℚ :=
  (ilocLast (rollingMean 14 (claimTRs (sortedOf df)))).getD 0

/-! ## Basic structural lemmas -/

theorem length_sortByTs (l : List Candle) : (sortByTs l).length = l.length :=
  List.length_insertionSort _ _

theorem length_sortedOf (df : List Candle) : (sortedOf df).length = df.length := by
  rw [sortedOf, length_sortByTs, List.length_map]

theorem length_rollingMax (k : Nat) (xs : List ℚ) :
    (rollingMax k xs).length = xs.length := by
  simp [rollingMax]

theorem length_rollingMean (k : Nat) (xs : List ℚ) :
    (rollingMean k xs).length = xs.length := by
  simp [rollingMean]

theorem length_rollingMeanO (k : Nat) (xs : List (Option ℚ)) :
    (rollingMeanO k xs).length = xs.length := by
  simp [rollingMeanO]

theorem length_trAux (p : Candle) (l : List Candle) :
    (trAux p l).length = l.length := by
  induction l generalizing p with
  | nil => rfl
  | cons c rest ih => simp [trAux, ih]

theorem length_trList (l : List Candle) : (trList l).length = l.length := by
  cases l with
  | nil => rfl
  | cons c rest => simp [trList, length_trAux]

theorem ilocLast_isSome {α : Type} (xs : List α) (h : xs ≠ []) :
    ∃ a, ilocLast xs = some a := by
  rw [ilocLast]
  exact Option.isSome_iff_exists.1 (List.getLast?_isSome.2 h)

theorem ilocPrev_isSome {α : Type} (xs : List α) (h : 2 ≤ xs.length) :
    ∃ a, ilocPrev xs = some a := by
  rw [ilocPrev, if_pos h]
  have hlt : xs.length - 2 < xs.length := by omega
  exact ⟨_, List.get?_eq_get hlt⟩

theorem ilocPrev_none {α : Type} (xs : List α) (h : xs.length < 2) :
    ilocPrev xs = none := by
  rw [ilocPrev, if_neg (by omega)]

/-- A frame with fewer than two rows makes `classifySorted` raise
(`.iloc[-1]` or `.iloc[-2]` out of bounds). -/
theorem classifySorted_short (dfs : List Candle) (lookback : Nat)
    (h : dfs.length < 2) : classifySorted dfs lookback = none := by
  match dfs, h with
  | [], _ => rfl
  | [c], _ => simp [classifySorted, ilocPrev, length_rollingMax, ilocLast]

/-- A frame with at least two rows always classifies to a verdict. -/
theorem classifySorted_isSome (dfs : List Candle) (lookback : Nat)
    (h : 2 ≤ dfs.length) : (classifySorted dfs lookback).isSome = true := by
  obtain ⟨lastC, hl⟩ := ilocLast_isSome dfs (by intro he; rw [he] at h; simp at h)
  obtain ⟨p, hp⟩ := ilocPrev_isSome (rollingMax lookback (dfs.map (·.high)))
    (by rw [length_rollingMax, List.length_map]; exact h)
  simp only [classifySorted, hl, hp]
  split_ifs <;> rfl

/-! ## Claim theorems: the classifier -/

/-- C2: for every candle series with fewer than `lookback` candles,
`identify_breakout` returns `is_breakout = false` with category
"Insufficient Data" and no metrics, performing no computation below this
size (the guard is the first statement of the function). -/
theorem identify_breakout_insufficient_data (df : List Candle)
    (lookback : Nat) (h : df.length < lookback) :
    identify_breakout df lookback =
      some ⟨false, "Insufficient Data", none⟩ := by
  rw [identify_breakout, if_pos h]

/-- C2 witness: a one-candle series under the default lookback of 20. -/
theorem identify_breakout_insufficient_data_witness :
    identify_breakout [⟨.raw 7, 5, 6, 4, 5, 10⟩] 20 =
      some ⟨false, "Insufficient Data", none⟩ :=
  identify_breakout_insufficient_data _ _ (by decide)

/-- C10: for a positive lookback, `identify_breakout` produces a verdict
exactly when the series is shorter than `lookback` (insufficient data) or
has at least two candles; in particular with `lookback = 1` and a single
candle the length guard passes but `highest_high.iloc[-2]` indexes out of
bounds, so no verdict is returned. -/
theorem identify_breakout_total_iff (df : List Candle) (lookback : Nat)
    (h : 1 ≤ lookback) :
    (identify_breakout df lookback).isSome = true ↔
      (df.length < lookback ∨ 2 ≤ df.length) := by
  by_cases hlt : df.length < lookback
  · rw [identify_breakout, if_pos hlt]
    exact iff_of_true rfl (Or.inl hlt)
  · rw [identify_breakout, if_neg hlt, if_neg (by omega)]
    by_cases h2 : 2 ≤ df.length
    · exact iff_of_true
        (classifySorted_isSome _ _ (by rw [length_sortedOf]; exact h2))
        (Or.inr h2)
    · rw [classifySorted_short _ _ (by rw [length_sortedOf]; omega)]
      simp only [Option.isSome_none, Bool.false_eq_true, false_iff]
      omega

/-- C10 witness: lookback 1 on a one-candle series yields no verdict. -/
theorem identify_breakout_total_iff_witness :
    (identify_breakout [⟨.raw 3, 9, 12, 8, 11, 50⟩] 1).isSome = true ↔
      (([⟨.raw 3, 9, 12, 8, 11, 50⟩] : List Candle).length < 1 ∨
        2 ≤ ([⟨.raw 3, 9, 12, 8, 11, 50⟩] : List Candle).length) :=
  identify_breakout_total_iff _ 1 (by decide)

/-- C3 counterexample: with `lookback = 1` and a single-candle series the
rolling-high benchmark at the second-to-last position is undefined, yet
`identify_breakout` does not return the "No Breakout" verdict the claim
requires — it raises (returns no verdict at all). -/
theorem identify_breakout_undefined_prevHigh_cex :
    prevHighOf [⟨.raw 0, 1, 2, 1, 1, 1⟩] 1 = none ∧
    identify_breakout [⟨.raw 0, 1, 2, 1, 1, 1⟩] 1 = none ∧
    identify_breakout [⟨.raw 0, 1, 2, 1, 1, 1⟩] 1 ≠
      some ⟨false, "No Breakout", none⟩ := by
  refine ⟨rfl, rfl, ?_⟩
  decide

/-- C3 amended: for every series of length at least `lookback` (positive)
whose rolling-high benchmark at the second-to-last position is defined,
if the last close does not exceed that benchmark then the verdict is
`is_breakout = false`, category "No Breakout", no metrics.  (When the
benchmark position is out of range — only possible with `lookback = 1`
and a single candle — the function raises instead of returning a
verdict.) -/
theorem identify_breakout_no_breakout (df : List Candle) (lookback : Nat)
    (p cl : ℚ) (h0 : 1 ≤ lookback) (h1 : lookback ≤ df.length)
    (hp : prevHighOf df lookback = some p)
    (hc : lastCloseOf df = some cl) (hle : cl ≤ p) :
    identify_breakout df lookback = some ⟨false, "No Breakout", none⟩ := by
  rw [identify_breakout, if_neg (by omega), if_neg (by omega)]
  obtain ⟨lastC, hl, hcl⟩ := Option.map_eq_some'.1 hc
  rw [prevHighOf] at hp
  simp only [classifySorted, hl, hp]
  rw [hcl, if_neg (not_lt.2 hle)]

/-- C3 amended witness: two flat candles, the second closing below the
rolling high of the first. -/
theorem identify_breakout_no_breakout_witness :
    identify_breakout
      [⟨.raw 0, 10, 12, 9, 10, 100⟩, ⟨.raw 1, 10, 11, 9, 11, 100⟩] 2 =
      some ⟨false, "No Breakout", none⟩ :=
  identify_breakout_no_breakout _ 2 12 11 (by decide) (by decide)
    (by decide) (by decide) (by decide)

/-- C1: whenever the series is long enough and the last close strictly
exceeds the rolling high at the second-to-last position, the verdict has
`is_breakout = true`, metrics populated with all six values, and the
category decided by the inclusive tie-breaks: `breakout_size ≤ atr` gives
"Partial Breakout - Small Size", else `current_volume ≤ 1.5 * avg_volume`
gives "Partial Breakout - Low Volume", else "Full Breakout". -/
theorem identify_breakout_breakout_branch (df : List Candle)
    (lookback : Nat) (p cl : ℚ) (h0 : 1 ≤ lookback)
    (h1 : lookback ≤ df.length) (hp : prevHighOf df lookback = some p)
    (hc : lastCloseOf df = some cl) (hgt : p < cl) :
    identify_breakout df lookback =
      some ⟨true,
        claimCategory (cl - p) (atrOf df) (curVolOf df)
          (avgVolOf df lookback),
        some ⟨cl, p, cl - p, atrOf df, curVolOf df,
          avgVolOf df lookback⟩⟩ := by
  rw [identify_breakout, if_neg (by omega), if_neg (by omega)]
  obtain ⟨lastC, hl, hcl⟩ := Option.map_eq_some'.1 hc
  have hv : curVolOf df = lastC.volume := by
    rw [curVolOf, hl]; rfl
  have ha : atrOf df = ((ilocLast (rollingMeanO 14 (trList (sortedOf df)))).join).getD 0 := rfl
  have hav : avgVolOf df lookback =
      (ilocLast (rollingMean lookback ((sortedOf df).map (·.volume)))).getD 0 := rfl
  rw [prevHighOf] at hp
  simp only [classifySorted, hl, hp]
  rw [hcl, if_pos hgt]
  rw [show ((ilocLast (rollingMeanO 14 (trList (sortedOf df)))).join).getD 0
      = atrOf df from rfl]
  rw [show (ilocLast (rollingMean lookback ((sortedOf df).map (·.volume)))).getD 0
      = avgVolOf df lookback from rfl]
  rw [show lastC.volume = curVolOf df from hv.symm]
  rcases le_or_lt (cl - p) (atrOf df) with hba | hba
  · rw [if_neg (not_lt.2 hba)]
    rw [claimCategory, if_pos hba]
  · rw [if_pos hba, claimCategory, if_neg (not_le.2 hba)]
    rcases le_or_lt (curVolOf df) ((3 : ℚ) / 2 * avgVolOf df lookback)
      with hcv | hcv
    · rw [if_neg (not_lt.2 hcv), if_pos hcv]
    · rw [if_pos hcv, if_neg (not_le.2 hcv)]

/-- C1 witness: two candles, the second closing above the first high with
a small true range, hitting the small-size boundary case. -/
theorem identify_breakout_breakout_branch_witness :
    identify_breakout
      [⟨.raw 0, 10, 12, 9, 10, 100⟩, ⟨.raw 1, 10, 20, 14, 18, 400⟩] 2 =
      some ⟨true,
        claimCategory ((18 : ℚ) - 12)
          (atrOf [⟨.raw 0, 10, 12, 9, 10, 100⟩, ⟨.raw 1, 10, 20, 14, 18, 400⟩])
          (curVolOf [⟨.raw 0, 10, 12, 9, 10, 100⟩, ⟨.raw 1, 10, 20, 14, 18, 400⟩])
          (avgVolOf [⟨.raw 0, 10, 12, 9, 10, 100⟩, ⟨.raw 1, 10, 20, 14, 18, 400⟩] 2),
        some ⟨18, 12, (18 : ℚ) - 12,
          atrOf [⟨.raw 0, 10, 12, 9, 10, 100⟩, ⟨.raw 1, 10, 20, 14, 18, 400⟩],
          curVolOf [⟨.raw 0, 10, 12, 9, 10, 100⟩, ⟨.raw 1, 10, 20, 14, 18, 400⟩],
          avgVolOf [⟨.raw 0, 10, 12, 9, 10, 100⟩, ⟨.raw 1, 10, 20, 14, 18, 400⟩] 2⟩⟩ :=
  identify_breakout_breakout_branch _ 2 12 18 (by decide) (by decide)
    (by decide) (by decide) (by decide)

/-- C4 counterexample: a two-candle breakout series on which the ATR the
code uses (8, the first candle's true range being NaN and excluded from
the rolling mean) differs from the ATR the claim prescribes (499, with
the first candle's true range taken as `high - low = 990`), flipping the
tie-break: the code returns "Partial Breakout - Low Volume" where the
claim's ATR would force "Partial Breakout - Small Size". -/
theorem atr_first_candle_cex :
    identify_breakout
      [⟨.raw 0, 1000, 1000, 10, 1002, 100⟩,
        ⟨.raw 1, 1005, 1010, 1009, 1010, 100⟩] 2 =
      some ⟨true, "Partial Breakout - Low Volume",
        some ⟨1010, 1000, 10, 8, 100, 100⟩⟩ ∧
    claimAtr
      [⟨.raw 0, 1000, 1000, 10, 1002, 100⟩,
        ⟨.raw 1, 1005, 1010, 1009, 1010, 100⟩] = 499 ∧
    (8 : ℚ) ≠ 499 ∧
    claimCategory 10 499 100 100 = "Partial Breakout - Small Size" := by
  refine ⟨by decide, by decide, by decide, by decide⟩

theorem trAux_eq (p : Candle) (l : List Candle) :
    trAux p l = (specTRs (p :: l)).map some := by
  induction l generalizing p with
  | nil => rfl
  | cons c rest ih => simp [trAux, specTRs, ih, List.zipWith]

theorem trList_eq (c : Candle) (rest : List Candle) :
    trList (c :: rest) = none :: (specTRs (c :: rest)).map some := by
  rw [trList, trAux_eq]

theorem length_specTRs (c : Candle) (rest : List Candle) :
    (specTRs (c :: rest)).length = rest.length := by
  simp [specTRs]

theorem getLast?_range_map {α : Type} (g : Nat → α) (n : Nat) (h : 1 ≤ n) :
    ((List.range n).map g).getLast? = some (g (n - 1)) := by
  obtain ⟨m, rfl⟩ : ∃ m, n = m + 1 := ⟨n - 1, by omega⟩
  rw [List.range_succ, List.map_append, List.map_cons, List.map_nil,
    List.getLast?_concat]
  simp

theorem filterMap_id_map_some {α : Type} (l : List α) :
    (l.map some).filterMap id = l := by
  induction l with
  | nil => rfl
  | cons a l ih => simp [ih]

/-- The defined entries of the last ATR window are exactly the last
(at most) 14 consecutive-pair true ranges. -/
theorem windowO_atr (c : Candle) (rest : List Candle) :
    windowO 14 ((c :: rest).length - 1) (trList (c :: rest)) =
      (specTRs (c :: rest)).drop ((specTRs (c :: rest)).length - 14) := by
  have hlsp : (specTRs (c :: rest)).length = rest.length := length_specTRs c rest
  have hlen : (trList (c :: rest)).length = rest.length + 1 := by
    rw [length_trList]; rfl
  rw [windowO,
    show (c :: rest).length - 1 + 1 = rest.length + 1 from by simp,
    show List.take (rest.length + 1) (trList (c :: rest)) = trList (c :: rest)
      from by rw [← hlen, List.take_length],
    trList_eq]
  by_cases h14 : rest.length ≤ 13
  · rw [show rest.length + 1 - 14 = 0 from by omega,
      show (specTRs (c :: rest)).length - 14 = 0 from by omega,
      List.drop_zero, List.drop_zero, List.filterMap_cons]
    exact filterMap_id_map_some _
  · rw [show rest.length + 1 - 14 = (rest.length - 14) + 1 from by omega,
      List.drop_succ_cons, ← List.map_drop,
      show (specTRs (c :: rest)).length - 14 = rest.length - 14 from by omega]
    exact filterMap_id_map_some _

/-- The ATR cell the classifier reads equals the plain mean of the last
(at most) 14 consecutive-pair true ranges. -/
theorem atr_eq_spec (dfs : List Candle) (h : 2 ≤ dfs.length) :
    ((ilocLast (rollingMeanO 14 (trList dfs))).join).getD 0 =
      ((specTRs dfs).drop ((specTRs dfs).length - 14)).sum /
        (((specTRs dfs).drop ((specTRs dfs).length - 14)).length : ℚ) := by
  obtain ⟨c, rest, rfl⟩ : ∃ c rest, dfs = c :: rest := by
    cases dfs with
    | nil => simp at h
    | cons c rest => exact ⟨c, rest, rfl⟩
  have hr : 1 ≤ rest.length := by
    simp only [List.length_cons] at h; omega
  rw [ilocLast, rollingMeanO,
    getLast?_range_map _ _ (by rw [length_trList]; simp),
    show (trList (c :: rest)).length - 1 = (c :: rest).length - 1 from by
      rw [length_trList]]
  simp only [Option.join, Option.some_bind, id]
  rw [windowO_atr]
  have hwlen :
      ((specTRs (c :: rest)).drop ((specTRs (c :: rest)).length - 14)).length
        ≠ 0 := by
    rw [List.length_drop, length_specTRs]; omega
  have hwne : ¬ (((specTRs (c :: rest)).drop
      ((specTRs (c :: rest)).length - 14)).isEmpty = true) := by
    intro he
    rw [List.isEmpty_iff.1 he] at hwlen
    exact hwlen rfl
  rw [if_neg hwne, Option.getD_some]

/-- C4 amended: in any verdict carrying metrics, the reported `atr` is
the mean of the true ranges of the last `min(14, len - 1)`
consecutive-candle pairs — the first candle has no defined true range
(its `shift(1)` close is NaN, which `np.maximum` propagates) and is
excluded from the rolling mean rather than contributing `high - low`. -/
theorem atr_skips_first_candle (df : List Candle) (lookback : Nat)
    (v : Verdict) (m : Metrics)
    (hv : identify_breakout df lookback = some v) (hm : v.metrics = some m) :
    m.atr =
      ((specTRs (sortedOf df)).drop ((specTRs (sortedOf df)).length - 14)).sum /
        ((((specTRs (sortedOf df)).drop
          ((specTRs (sortedOf df)).length - 14)).length : ℚ)) := by
  by_cases h1 : df.length < lookback
  · rw [identify_breakout, if_pos h1] at hv
    cases Option.some.inj hv
    simp at hm
  by_cases h2 : lookback = 0
  · rw [identify_breakout, if_neg h1, if_pos h2] at hv
    exact Option.noConfusion hv
  rw [identify_breakout, if_neg h1, if_neg h2] at hv
  · have hlen2 : 2 ≤ (sortedOf df).length := by
      by_contra hlt
      push_neg at hlt
      rw [classifySorted_short _ _ hlt] at hv
      cases hv
    obtain ⟨lastC, hl⟩ := ilocLast_isSome (sortedOf df)
      (by intro he; rw [he] at hlen2; simp at hlen2)
    obtain ⟨p, hp⟩ := ilocPrev_isSome
      (rollingMax lookback ((sortedOf df).map (·.high)))
      (by rw [length_rollingMax, List.length_map]; exact hlen2)
    have hatr := atr_eq_spec (sortedOf df) hlen2
    simp only [classifySorted, hl, hp] at hv
    split_ifs at hv
    all_goals (cases Option.some.inj hv)
    all_goals (first
      | (simp only [Option.some.injEq] at hm
         rw [← hm]
         exact hatr)
      | simp at hm)

/-- C4 amended witness: the two-candle breakout series again; the metrics
carry `atr = 8`, the mean of the single defined true range. -/
theorem atr_skips_first_candle_witness :
    (⟨1010, 1000, 10, 8, 100, 100⟩ : Metrics).atr =
      ((specTRs (sortedOf
        [⟨.raw 0, 1000, 1000, 10, 1002, 100⟩,
          ⟨.raw 1, 1005, 1010, 1009, 1010, 100⟩])).drop
        ((specTRs (sortedOf
          [⟨.raw 0, 1000, 1000, 10, 1002, 100⟩,
            ⟨.raw 1, 1005, 1010, 1009, 1010, 100⟩])).length - 14)).sum /
        ((((specTRs (sortedOf
          [⟨.raw 0, 1000, 1000, 10, 1002, 100⟩,
            ⟨.raw 1, 1005, 1010, 1009, 1010, 100⟩])).drop
          ((specTRs (sortedOf
            [⟨.raw 0, 1000, 1000, 10, 1002, 100⟩,
              ⟨.raw 1, 1005, 1010, 1009, 1010, 100⟩])).length - 14)).length
          : ℚ)) :=
  atr_skips_first_candle _ 2
    ⟨true, "Partial Breakout - Low Volume", some ⟨1010, 1000, 10, 8, 100, 100⟩⟩
    ⟨1010, 1000, 10, 8, 100, 100⟩ (by decide) (by decide)

/-! ## Claim theorems: the orchestrator -/

/-- C5 counterexample: a symbol whose fetch fails twice and succeeds on
the 3rd attempt.  The code doubles the delay *before* sleeping
(`delay *= 2; time.sleep(delay)`), so the two observed backoff sleeps are
2 then 4 time units, not the claimed 1 then 2. -/
theorem backoff_sleeps_cex :
    backoffs (scan_for_breakouts (fun _ => true)
      (fun _ a => if a < 2 then .exn else .ok (some [⟨.raw 0, 1, 1, 1, 1, 1⟩]))
      ["X"]).2.2 = [2, 4] ∧
    ([2, 4] : List Nat) ≠ [1, 2] :=
  ⟨by decide, by decide⟩

/-- C5 amended: the delay starts at 1, doubles on every failure, and the
orchestrator sleeps the *doubled* value; a symbol that fails twice and
succeeds on the 3rd attempt therefore shows exactly two backoff sleeps of
2 then 4 time units, the verdict is computed from the successful response
(appended when breakout-positive), and the delay is left at 4 — not reset
— for the inter-symbol pause and the rest of the run. -/
theorem retry_backoff_trace (F : String → Nat → FetchRes) (s : String)
    (df : List Candle) (v : Verdict)
    (h0 : F s 0 = .exn) (h1 : F s 1 = .exn) (h2 : F s 2 = .ok (some df))
    (hne : df.isEmpty = false) (hv : identify_breakout df 20 = some v) :
    scan_for_breakouts (fun _ => true) F [s] =
      (recsOf s v, 4,
        [.fetch s 0, .backoff 2, .fetch s 1, .backoff 4, .fetch s 2,
          .pause 4]) := by
  simp [scan_for_breakouts, scanList, symbolStep, attemptLoop,
    h0, h1, h2, hne, hv]

/-- C5 amended witness: the concrete fail-fail-succeed oracle. -/
theorem retry_backoff_trace_witness :
    scan_for_breakouts (fun _ => true)
      (fun _ a => if a < 2 then .exn else .ok (some [⟨.raw 0, 1, 1, 1, 1, 1⟩]))
      ["X"] =
      (recsOf "X" ⟨false, "Insufficient Data", none⟩, 4,
        [.fetch "X" 0, .backoff 2, .fetch "X" 1, .backoff 4, .fetch "X" 2,
          .pause 4]) :=
  retry_backoff_trace _ "X" [⟨.raw 0, 1, 1, 1, 1, 1⟩]
    ⟨false, "Insufficient Data", none⟩ (by decide) (by decide) (by decide)
    (by decide) (by decide)

theorem fetchCount_cons_fetch (sym : String) (a : Nat) (evs : List Ev) :
    fetchCount sym (Ev.fetch sym a :: evs) = fetchCount sym evs + 1 := by
  simp [fetchCount, List.filter]

theorem fetchCount_cons_backoff (sym : String) (d : Nat) (evs : List Ev) :
    fetchCount sym (Ev.backoff d :: evs) = fetchCount sym evs := by
  simp [fetchCount, List.filter]

theorem fetchCount_attemptLoop (f : Nat → FetchRes) (sym : String)
    (a r delay : Nat) :
    fetchCount sym (attemptLoop f sym a r delay).2.2 ≤ r := by
  induction r generalizing a delay with
  | zero => simp [attemptLoop, fetchCount]
  | succ r ih =>
    rw [attemptLoop]
    cases hf : f a with
    | exn =>
      simp only [fetchCount_cons_fetch, fetchCount_cons_backoff]
      exact Nat.succ_le_succ (ih _ _)
    | ok d =>
      cases d with
      | none =>
        simp [fetchCount_cons_fetch, fetchCount]
      | some df =>
        by_cases he : df.isEmpty
        · simp [he, fetchCount_cons_fetch, fetchCount]
        · simp only [he, if_false, Bool.false_eq_true]
          cases hb : identify_breakout df 20 with
          | some v => simp [fetchCount_cons_fetch, fetchCount]
          | none =>
            simp only [fetchCount_cons_fetch, fetchCount_cons_backoff]
            exact Nat.succ_le_succ (ih _ _)

/-- C6: per-symbol failure handling.  (1) At most 3 fetch attempts are
recorded for a symbol.  (2) An empty/`None` first response ends the
symbol at once — one fetch call, no backoff, no retry consumed, no
verdict, delay unchanged.  (3) If all 3 attempts raise, the symbol is
abandoned with no verdict (the exhausted loop merely logs).  (4) The scan
as a whole never aborts: the records and trace of a scan starting at any
symbol are exactly that symbol's contribution followed by the scan of the
remaining symbols — whatever the failures. -/
theorem scan_retry_policy (lookup : String → Bool)
    (F : String → Nat → FetchRes) (s : String) (rest : List String)
    (d : Nat) :
    fetchCount s (symbolStep lookup F s d).2.2 ≤ 3 ∧
    ((F s 0 = .ok none ∨ F s 0 = .ok (some [])) → lookup s = true →
      symbolStep lookup F s d = ([], d, [Ev.fetch s 0])) ∧
    ((∀ a, a < 3 → F s a = .exn) → lookup s = true →
      symbolStep lookup F s d =
        ([], d * 8,
          [Ev.fetch s 0, .backoff (d * 2), Ev.fetch s 1, .backoff (d * 4),
            Ev.fetch s 2, .backoff (d * 8)])) ∧
    scanList lookup F (s :: rest) d =
      ((symbolStep lookup F s d).1 ++
          (scanList lookup F rest (symbolStep lookup F s d).2.1).1,
        (scanList lookup F rest (symbolStep lookup F s d).2.1).2.1,
        (symbolStep lookup F s d).2.2 ++
          [Ev.pause (symbolStep lookup F s d).2.1] ++
          (scanList lookup F rest (symbolStep lookup F s d).2.1).2.2) := by
  refine ⟨?_, ?_, ?_, rfl⟩
  · rw [symbolStep]
    by_cases hl : lookup s
    · rw [if_pos hl]
      exact fetchCount_attemptLoop _ _ _ _ _
    · rw [if_neg hl]
      simp [fetchCount]
  · intro h0 hl
    rw [symbolStep, if_pos hl, attemptLoop]
    rcases h0 with h0 | h0 <;> (rw [h0]; try simp)
  · intro hf hl
    have e0 := hf 0 (by omega)
    have e1 := hf 1 (by omega)
    have e2 := hf 2 (by omega)
    rw [symbolStep, if_pos hl]
    simp [attemptLoop, e0, e1, e2]
    omega

/-- C6 witness: a lookup-all oracle where symbol "E" answers `None` and
symbol "X" always raises; "E" ends after one fetch with the delay intact
and "X" is abandoned after 3 attempts with no verdict. -/
theorem scan_retry_policy_witness :
    symbolStep (fun _ => true)
      (fun s _ => if s = "E" then FetchRes.ok none else .exn) "E" 1 =
      ([], 1, [Ev.fetch "E" 0]) ∧
    symbolStep (fun _ => true)
      (fun s _ => if s = "E" then FetchRes.ok none else .exn) "X" 1 =
      ([], 1 * 8,
        [Ev.fetch "X" 0, .backoff (1 * 2), Ev.fetch "X" 1, .backoff (1 * 4),
          Ev.fetch "X" 2, .backoff (1 * 8)]) ∧
    fetchCount "X" (symbolStep (fun _ => true)
      (fun s _ => if s = "E" then FetchRes.ok none else .exn) "X" 1).2.2 ≤ 3 :=
  ⟨(scan_retry_policy (fun _ => true)
      (fun s _ => if s = "E" then FetchRes.ok none else .exn) "E" [] 1).2.1
      (Or.inl (by decide)) (by decide),
   (scan_retry_policy (fun _ => true)
      (fun s _ => if s = "E" then FetchRes.ok none else .exn) "X" [] 1).2.2.1
      (fun a ha => by decide) (by decide),
   (scan_retry_policy (fun _ => true)
      (fun s _ => if s = "E" then FetchRes.ok none else .exn) "X" [] 1).1⟩

theorem mem_attemptLoop (f : Nat → FetchRes) (sym : String)
    (a r delay : Nat) (x : Rec)
    (hx : x ∈ (attemptLoop f sym a r delay).1) :
    ∃ df v, identify_breakout df 20 = some v ∧ v.is_breakout = true ∧
      x = ⟨sym, v.category, v.metrics⟩ := by
  induction r generalizing a delay with
  | zero => simp [attemptLoop] at hx
  | succ r ih =>
    rw [attemptLoop] at hx
    cases hf : f a with
    | exn =>
      rw [hf] at hx
      exact ih _ _ hx
    | ok d =>
      cases d with
      | none => rw [hf] at hx; simp at hx
      | some df =>
        simp only [hf] at hx
        by_cases he : df.isEmpty
        · rw [if_pos he] at hx; simp at hx
        · rw [if_neg he] at hx
          cases hb : identify_breakout df 20 with
          | some v =>
            simp only [hb] at hx
            simp only [recsOf] at hx
            by_cases hbk : v.is_breakout
            · rw [if_pos hbk] at hx
              simp only [List.mem_singleton] at hx
              exact ⟨df, v, hb, hbk, hx⟩
            · rw [if_neg hbk] at hx
              simp at hx
          | none =>
            simp only [hb] at hx
            exact ih _ _ hx

/-- A verdict with `is_breakout = true` carries one of the three
breakout categories. -/
theorem breakout_category (df : List Candle) (lookback : Nat) (v : Verdict)
    (hv : identify_breakout df lookback = some v)
    (hb : v.is_breakout = true) :
    v.category = "Full Breakout" ∨
    v.category = "Partial Breakout - Low Volume" ∨
    v.category = "Partial Breakout - Small Size" := by
  by_cases h1 : df.length < lookback
  · rw [identify_breakout, if_pos h1] at hv
    cases Option.some.inj hv
    simp at hb
  by_cases h2 : lookback = 0
  · rw [identify_breakout, if_neg h1, if_pos h2] at hv
    exact Option.noConfusion hv
  rw [identify_breakout, if_neg h1, if_neg h2] at hv
  have hlen2 : 2 ≤ (sortedOf df).length := by
    by_contra hlt
    push_neg at hlt
    rw [classifySorted_short _ _ hlt] at hv
    cases hv
  obtain ⟨lastC, hl⟩ := ilocLast_isSome (sortedOf df)
    (by intro he; rw [he] at hlen2; simp at hlen2)
  obtain ⟨p, hp⟩ := ilocPrev_isSome
    (rollingMax lookback ((sortedOf df).map (·.high)))
    (by rw [length_rollingMax, List.length_map]; exact hlen2)
  simp only [classifySorted, hl, hp] at hv
  split_ifs at hv
  all_goals (cases Option.some.inj hv)
  · exact Or.inl rfl
  · exact Or.inr (Or.inl rfl)
  · exact Or.inr (Or.inr rfl)
  · simp at hb

theorem mem_scanList (lookup : String → Bool)
    (F : String → Nat → FetchRes) (syms : List String) (d : Nat) (x : Rec)
    (hx : x ∈ (scanList lookup F syms d).1) :
    ∃ sym df v, identify_breakout df 20 = some v ∧
      v.is_breakout = true ∧ x = ⟨sym, v.category, v.metrics⟩ := by
  induction syms generalizing d with
  | nil => simp [scanList] at hx
  | cons s rest ih =>
    rw [scanList] at hx
    simp only [List.mem_append] at hx
    rcases hx with hx | hx
    · rw [symbolStep] at hx
      by_cases hl : lookup s
      · rw [if_pos hl] at hx
        obtain ⟨df, v, hv, hb, hxe⟩ := mem_attemptLoop _ _ _ _ _ _ hx
        exact ⟨s, df, v, hv, hb, hxe⟩
      · rw [if_neg hl] at hx
        simp at hx
    · exact ih _ hx

/-- C7: the returned sequence holds only breakout-positive verdicts
joined with their symbol name — every record's category is one of the
three breakout categories (never "No Breakout" or "Insufficient Data"),
and on a successful non-empty first fetch the symbol contributes its
verdict exactly when `is_breakout` is true. -/
theorem scan_results_breakout_only (lookup : String → Bool)
    (F : String → Nat → FetchRes) (syms : List String) (d : Nat)
    (s : String) (df : List Candle) (v : Verdict) :
    (∀ x ∈ (scanList lookup F syms d).1,
      x.breakout_type = "Full Breakout" ∨
      x.breakout_type = "Partial Breakout - Low Volume" ∨
      x.breakout_type = "Partial Breakout - Small Size") ∧
    (lookup s = true → F s 0 = .ok (some df) → df.isEmpty = false →
      identify_breakout df 20 = some v →
      symbolStep lookup F s d =
        (if v.is_breakout then [⟨s, v.category, v.metrics⟩] else [],
          d, [Ev.fetch s 0])) := by
  constructor
  · intro x hx
    obtain ⟨sym, dfx, vx, hv, hb, hxe⟩ := mem_scanList _ _ _ _ _ hx
    have := breakout_category dfx 20 vx hv hb
    rw [hxe]
    exact this
  · intro hl h0 hne hv
    rw [symbolStep, if_pos hl, attemptLoop]
    simp [h0, hne, hv, recsOf]

/-- C7 witness: a single-symbol scan whose fetch succeeds at once with a
non-breakout series contributes no record, and all records of the scan
(here none) carry breakout categories. -/
theorem scan_results_breakout_only_witness :
    (∀ x ∈ (scanList (fun _ => true)
        (fun _ _ => FetchRes.ok (some [⟨.raw 0, 1, 1, 1, 1, 1⟩])) ["X"] 1).1,
      x.breakout_type = "Full Breakout" ∨
      x.breakout_type = "Partial Breakout - Low Volume" ∨
      x.breakout_type = "Partial Breakout - Small Size") ∧
    symbolStep (fun _ => true)
      (fun _ _ => FetchRes.ok (some [⟨.raw 0, 1, 1, 1, 1, 1⟩])) "X" 1 =
      (if (⟨false, "Insufficient Data", none⟩ : Verdict).is_breakout then
          [⟨"X", (⟨false, "Insufficient Data", none⟩ : Verdict).category,
            (⟨false, "Insufficient Data", none⟩ : Verdict).metrics⟩]
        else [], 1, [Ev.fetch "X" 0]) :=
  ⟨(scan_results_breakout_only (fun _ => true)
      (fun _ _ => FetchRes.ok (some [⟨.raw 0, 1, 1, 1, 1, 1⟩])) ["X"] 1 "X"
      [⟨.raw 0, 1, 1, 1, 1, 1⟩] ⟨false, "Insufficient Data", none⟩).1,
   (scan_results_breakout_only (fun _ => true)
      (fun _ _ => FetchRes.ok (some [⟨.raw 0, 1, 1, 1, 1, 1⟩])) ["X"] 1 "X"
      [⟨.raw 0, 1, 1, 1, 1, 1⟩] ⟨false, "Insufficient Data", none⟩).2
      (by decide) (by decide) (by decide) (by decide)⟩

/-! ## Claim theorems: sorting, permutation invariance, purity -/

theorem key_convertTs (c : Candle) :
    (convertTs c).timestamp.key = c.timestamp.key := by
  cases h : c.timestamp <;> simp [convertTs, to_datetime, h, TsVal.key]

theorem sorted_tsLT (l : List Candle) (hs : l.Sorted tsLE)
    (hn : (l.map fun c => c.timestamp.key).Nodup) : l.Sorted tsLT := by
  have hne : l.Pairwise fun a b => a.timestamp.key ≠ b.timestamp.key :=
    List.pairwise_map.1 hn
  exact (hs.and hne).imp fun h => lt_of_le_of_ne h.1 h.2

/-- Sorting two permutations of the same candles with pairwise-distinct
timestamps gives the same list. -/
theorem sortByTs_eq_of_perm (l₁ l₂ : List Candle) (hp : l₁.Perm l₂)
    (hn : (l₂.map fun c => c.timestamp.key).Nodup) :
    sortByTs l₁ = sortByTs l₂ := by
  have hperm : (sortByTs l₁).Perm (sortByTs l₂) :=
    (List.perm_insertionSort _ _).trans
      (hp.trans (List.perm_insertionSort _ _).symm)
  have hn₂ : ((sortByTs l₂).map fun c => c.timestamp.key).Nodup :=
    (((List.perm_insertionSort tsLE l₂).map _).nodup_iff).2 hn
  have hn₁ : ((sortByTs l₁).map fun c => c.timestamp.key).Nodup :=
    ((hperm.map _).nodup_iff).2 hn₂
  exact List.eq_of_perm_of_sorted hperm
    (sorted_tsLT _ (List.sorted_insertionSort tsLE l₁) hn₁)
    (sorted_tsLT _ (List.sorted_insertionSort tsLE l₂) hn₂)

/-- C8: on series with pairwise-distinct timestamps, classification is
invariant under permutation of the candles — the classifier sorts by
timestamp before computing, and the only other dependence on the input
is its length, a permutation invariant. -/
theorem classify_perm_invariant (df df' : List Candle) (lookback : Nat)
    (hperm : df'.Perm df)
    (hnodup : (df.map fun c => c.timestamp.key).Nodup) :
    identify_breakout df' lookback = identify_breakout df lookback := by
  have hlen : df'.length = df.length := hperm.length_eq
  have hmapkey : ((df.map convertTs).map fun c => c.timestamp.key).Nodup := by
    rw [List.map_map]
    rw [show (List.map ((fun c => c.timestamp.key) ∘ convertTs) df) =
        df.map fun c => c.timestamp.key from
      List.map_congr_left fun c _ => key_convertTs c]
    exact hnodup
  have hs : sortedOf df' = sortedOf df :=
    sortByTs_eq_of_perm _ _ (hperm.map convertTs) hmapkey
  rw [identify_breakout, identify_breakout, hlen, hs]

/-- C8 witness: swapping two candles with distinct timestamps leaves the
verdict unchanged. -/
theorem classify_perm_invariant_witness :
    identify_breakout
      [⟨.raw 1, 10, 20, 14, 18, 400⟩, ⟨.raw 0, 10, 12, 9, 10, 100⟩] 2 =
    identify_breakout
      [⟨.raw 0, 10, 12, 9, 10, 100⟩, ⟨.raw 1, 10, 20, 14, 18, 400⟩] 2 :=
  classify_perm_invariant _ _ 2 (by decide) (by decide)

/-- C9 counterexample: `identify_breakout` is not frameless.  Once the
length guard passes, line 168 writes the `pd.to_datetime` conversion into
the caller's DataFrame in place: a caller passing raw (string) timestamps
observes every candle's timestamp field modified. -/
theorem classify_mutates_cex :
    identify_breakout_post
      [⟨.raw 0, 1, 2, 1, 1, 1⟩, ⟨.raw 1, 1, 2, 1, 1, 1⟩] 2 ≠
      [⟨.raw 0, 1, 2, 1, 1, 1⟩, ⟨.raw 1, 1, 2, 1, 1, 1⟩] ∧
    identify_breakout_post
      [⟨.raw 0, 1, 2, 1, 1, 1⟩, ⟨.raw 1, 1, 2, 1, 1, 1⟩] 2 =
      [⟨.dt 0, 1, 2, 1, 1, 1⟩, ⟨.dt 1, 1, 2, 1, 1, 1⟩] :=
  ⟨by decide, by decide⟩

/-- C9 amended: the verdict computation itself is a pure function of the
input (the model is functional, so identical inputs give identical
verdicts), but the call mutates the caller's series by normalising the
timestamp column whenever the length guard passes.  The caller's series
is unchanged exactly when the timestamps are already datetime values,
and pre-sorting an already-sorted series is a no-op. -/
theorem classify_post_state (df : List Candle) (lookback : Nat) :
    ((∀ c ∈ df, ∃ n, c.timestamp = TsVal.dt n) →
      identify_breakout_post df lookback = df) ∧
    (df.Sorted tsLE → sortByTs df = df) := by
  constructor
  · intro hdt
    rw [identify_breakout_post]
    split_ifs with h
    · rfl
    · rw [show df.map convertTs = df.map id from
        List.map_congr_left fun c hc => by
          obtain ⟨n, hn⟩ := hdt c hc
          cases c
          simp_all [convertTs, to_datetime], List.map_id]
  · intro hsorted
    exact hsorted.insertionSort_eq

/-- C9 amended witness: a datetime-stamped sorted series is untouched and
re-sorting it is the identity. -/
theorem classify_post_state_witness :
    identify_breakout_post
      [⟨.dt 0, 1, 2, 1, 1, 1⟩, ⟨.dt 1, 1, 2, 1, 1, 1⟩] 2 =
      [⟨.dt 0, 1, 2, 1, 1, 1⟩, ⟨.dt 1, 1, 2, 1, 1, 1⟩] ∧
    sortByTs [⟨.dt 0, 1, 2, 1, 1, 1⟩, ⟨.dt 1, 1, 2, 1, 1, 1⟩] =
      [⟨.dt 0, 1, 2, 1, 1, 1⟩, ⟨.dt 1, 1, 2, 1, 1, 1⟩] :=
  ⟨(classify_post_state _ 2).1 (by
      intro c hc
      simp only [List.mem_cons, List.not_mem_nil, or_false] at hc
      rcases hc with rfl | rfl
      · exact ⟨0, rfl⟩
      · exact ⟨1, rfl⟩),
   (classify_post_state _ 2).2 (by decide)⟩

end BreakoutDetector
